import Mathlib

/-!
Verification of the tourism-portal backend (osam-api) against its
natural-language specification.

The Python services mutate rows of a SQLAlchemy session; we embed each
service operation as an explicit state-passing function over lists of
records (the session's view of each table).  A query `.first()` becomes
`List.find?`, an in-place attribute assignment on the object returned by
`.first()` becomes `updateFirst`, a `db.delete` of that object becomes
`removeFirst`, and `ORDER BY` becomes a sort.  Raised exceptions become
`Except.error`.
-/

namespace Osam

/-- Generic helper: mutate the first element satisfying `q` (the object a
SQLAlchemy `.first()` query returns), leaving all other rows untouched. -/
def updateFirst (q : α → Bool) (f : α → α) : List α → List α
  | [] => []
  | x :: xs => if q x then f x :: xs else x :: updateFirst q f xs

/-- Generic helper: delete the first element satisfying `q`. -/
def removeFirst (q : α → Bool) : List α → List α
  | [] => []
  | x :: xs => if q x then xs else x :: removeFirst q xs

/-!
Authentication (app/services/auth_service.py, app/core/dependencies.py).

Timestamps are naturals (seconds).  Each service call receives the current
time as a parameter (the value `datetime.utcnow()` yields during the call).
A JWT is modelled as its payload together with the key it was signed with;
`jwt.decode` succeeds exactly when the key matches and the token is not
expired (python-jose treats a token as expired when `exp < now`).
-/

/-- Error raised by FastAPI handlers: HTTP status code plus detail string. -/
structure HTTPError where
  status_code : Nat
  detail : String
deriving DecidableEq, Repr

/-- Payload of a JWT as built by `create_access_token`. -/
structure Claims where
  user_id : Nat
  username : String
  role : String
  exp : Nat
  iat : Nat
deriving DecidableEq, Repr

/-- A signed token: the embedded claims plus the signing key. -/
structure Jwt where
  payload : Claims
  key : String
deriving DecidableEq, Repr

def SECRET_KEY : String := "your-secret-key-change-this-in-production-use-env-variable"

def ACCESS_TOKEN_EXPIRE_MINUTES : Nat := 60

def jwt_encode (payload : Claims) (key : String) : Jwt := ⟨payload, key⟩

/-- Signature check plus expiry check of `jwt.decode` (jose default leeway 0:
expired exactly when `exp < now`). -/
def jwt_decode (tok : Jwt) (key : String) (now : Nat) : Option Claims :=
  if tok.key = key ∧ now ≤ tok.payload.exp then some tok.payload else none

/-- AuthService.create_access_token: returns (token, expires_in_seconds). -/
def create_access_token (now : Nat) (user_id : Nat) (username role : String) :
    Jwt × Nat :=
  let expires_in := ACCESS_TOKEN_EXPIRE_MINUTES * 60
  let expire := now + ACCESS_TOKEN_EXPIRE_MINUTES * 60
  let payload : Claims :=
    { user_id := user_id, username := username, role := role,
      exp := expire, iat := now }
  (jwt_encode payload SECRET_KEY, expires_in)

/-- AuthService.verify_token: payload on success, none on any JWTError. -/
def verify_token (now : Nat) (token : Jwt) : Option Claims :=
  jwt_decode token SECRET_KEY now

/-- Row of the users table (app/models/user.py). -/
structure User where
  user_id : Nat
  username : String
  email : String
  password_hash : String
  first_name : String
  last_name : String
  role : String
  is_active : Bool
  created_at : Nat
  updated_at : Nat
deriving DecidableEq, Repr

/-- AuthService.get_user_by_id (also UserService.get_by_id). -/
def get_user_by_id (db : List User) (user_id : Nat) : Option User :=
  db.find? (fun u => u.user_id == user_id)

/-- Authenticated gate of the Access Control Guard
(app/core/dependencies.py, get_current_user): verify the bearer token, then
look the user up; Python `if not user_id` treats the id 0 as missing. -/
def get_current_user (now : Nat) (token : Jwt) (db : List User) :
    Except HTTPError User :=
  match verify_token now token with
  | none => Except.error ⟨401, ("Invalid or expired token")⟩
  | some payload =>
    if payload.user_id = 0 then Except.error ⟨401, ("Invalid token payload")⟩
    else
      match get_user_by_id db payload.user_id with
      | none => Except.error ⟨401, ("User not found or inactive")⟩
      | some user =>
        if user.is_active then Except.ok user
        else Except.error ⟨401, ("User not found or inactive")⟩

/-!
UserService (app/services/user_service.py) and the admin endpoints
(app/api/v1/endpoints/auth.py).

The Python `UserService.__init__` calls `super().__init__(db, User)` but
`BaseService.__init__` accepts only `db`; constructing the service raises
TypeError.  Likewise every mutator calls `self._commit(user)` although
`BaseService._commit` accepts no positional argument, so even with a fixed
constructor the commit raises TypeError.  Both defects are embedded as
`Except.error` values carrying the Python error message.
-/

def userservice_init_type_error : String :=
  "TypeError: BaseService.__init__ takes 2 positional arguments but 3 were given"

def commit_type_error : String :=
  "TypeError: _commit takes 1 positional argument but 2 were given"

/-- UserService.deactivate_user, as its body executes if the service object
existed: a missing id returns False before any mutation; an existing user is
deactivated in the session, after which `self._commit(user)` raises. -/
def deactivate_user (now : Nat) (db : List User) (user_id : Nat) :
    Except String Bool × List User :=
  match get_user_by_id db user_id with
  | none => (Except.ok false, db)
  | some _ =>
    let db2 := updateFirst (fun u => u.user_id == user_id)
      (fun u => { u with is_active := false, updated_at := now }) db
    (Except.error commit_type_error, db2)

/-- POST /auth/admin/users/id/deactivate: constructing `UserService(db)`
raises TypeError before `deactivate_user` can run. -/
def admin_deactivate_user (db : List User) (_user_id : Nat) :
    Except String Unit × List User :=
  (Except.error userservice_init_type_error, db)

/-- DELETE /auth/admin/users/id (admin_delete_user): self-deletion is
rejected with HTTP 400 before `UserService(db)` is even constructed; on any
other id the construction of `UserService(db)` raises TypeError before any
query or mutation. -/
def admin_delete_user (current_user : User) (user_id : Nat) (db : List User) :
    Except HTTPError Unit × List User :=
  if user_id = current_user.user_id then
    (Except.error ⟨400, ("Cannot delete your own account")⟩, db)
  else
    (Except.error ⟨500, userservice_init_type_error⟩, db)

/-!
PlaceService (app/services/place_service.py).  Numeric(10,8) columns are
embedded as scaled integers.
-/

/-- Row of the places table (app/models/place.py). -/
structure Place where
  place_id : Nat
  name : String
  description : String
  category : String
  location : String
  latitude : Option Int
  longitude : Option Int
  elevation_meters : Option Int
  entry_fee : Option Int
  entry_fee_currency : String
  best_time_to_visit : Option String
  average_visit_duration_hours : Option Int
  accessibility : Option String
  parking_available : Bool
  public_restrooms : Bool
  food_nearby : Bool
  is_featured : Bool
  view_count : Nat
  created_by : Option Nat
  created_at : Nat
  updated_at : Nat
deriving DecidableEq, Repr

/-- A single supplied update field: one `key: value` pair of the kwargs that
names an actual attribute of the Place model other than `place_id` (keys
failing `hasattr` are skipped by the update loop and keys equal to
`place_id` are excluded explicitly). -/
inductive PlaceField where
  | name (v : String)
  | description (v : String)
  | category (v : String)
  | location (v : String)
  | latitude (v : Option Int)
  | longitude (v : Option Int)
  | elevation_meters (v : Option Int)
  | entry_fee (v : Option Int)
  | best_time_to_visit (v : Option String)
  | is_featured (v : Bool)
deriving DecidableEq, Repr

/-- Effect of `setattr(place, key, value)` for a single supplied field. -/
def setPlaceField (p : Place) : PlaceField → Place
  | PlaceField.name v => { p with name := v }
  | PlaceField.description v => { p with description := v }
  | PlaceField.category v => { p with category := v }
  | PlaceField.location v => { p with location := v }
  | PlaceField.latitude v => { p with latitude := v }
  | PlaceField.longitude v => { p with longitude := v }
  | PlaceField.elevation_meters v => { p with elevation_meters := v }
  | PlaceField.entry_fee v => { p with entry_fee := v }
  | PlaceField.best_time_to_visit v => { p with best_time_to_visit := v }
  | PlaceField.is_featured v => { p with is_featured := v }

def valid_categories : List String := ["place", "landmark", "viewpoint", "parking"]

/-- The `if 'category' in kwargs` re-validation of PlaceService.update. -/
def placeCategoryInvalid : PlaceField → Bool
  | PlaceField.category v => !(valid_categories.contains v)
  | _ => false

def placeHasId (place_id : Nat) : Place → Bool :=
  fun p => p.place_id == place_id

/-- PlaceService.get_by_id: a successful lookup increments `view_count` and
commits — a mutating read. -/
def place_get_by_id (db : List Place) (place_id : Nat) :
    Option Place × List Place :=
  match db.find? (placeHasId place_id) with
  | none => (none, db)
  | some p =>
    (some { p with view_count := p.view_count + 1 },
      updateFirst (placeHasId place_id)
        (fun x => { x with view_count := x.view_count + 1 }) db)

/-- PlaceService.update with a single supplied field.  The lookup goes
through `self.get_by_id`, so it increments the view counter; then the
category re-validation runs (the increment is already committed when it
raises); then the field and `updated_at` are set and committed. -/
def place_update (now : Nat) (db : List Place) (place_id : Nat)
    (f : PlaceField) : Except String (Option Place) × List Place :=
  match place_get_by_id db place_id with
  | (none, db1) => (Except.ok none, db1)
  | (some p, db1) =>
    if placeCategoryInvalid f then
      (Except.error ("Invalid category"), db1)
    else
      let g := fun x => { setPlaceField x f with updated_at := now }
      (Except.ok (some (g p)), updateFirst (placeHasId place_id) g db1)

/-!
EventService (app/services/event_service.py).  Dates are day numbers.
-/

/-- Row of the events table (app/models/event.py), restricted to the columns
the status logic reads or writes. -/
structure Event where
  event_id : Nat
  name : String
  event_type : String
  description : String
  start_date : Nat
  end_date : Option Nat
  location : String
  status : String
  is_featured : Bool
  updated_at : Nat
deriving DecidableEq, Repr

/-- Status assignment of EventService.update_event_status: three `if/elif`
branches; when none fires the previously stored status is kept.  With an
end date, `event.end_date or event.start_date` is the end date. -/
def newEventStatus (today : Nat) (e : Event) : String :=
  match e.end_date with
  | some d =>
    if d < today then "completed"
    else if e.start_date ≤ today ∧ today ≤ d then "ongoing"
    else if today < e.start_date then "upcoming"
    else e.status
  | none =>
    if e.start_date ≤ today ∧ today ≤ e.start_date then "ongoing"
    else if today < e.start_date then "upcoming"
    else e.status

/-- Status transition rule as the specification words it: completed if an
end date exists and the reference date is strictly after it; ongoing if the
reference date falls within [start, end-or-start]; upcoming otherwise. -/
def specEventStatus (today start : Nat) (endDate : Option Nat) : String :=
  match endDate with
  | some d =>
    if d < today then "completed"
    else if start ≤ today ∧ today ≤ d then "ongoing"
    else "upcoming"
  | none =>
    if start ≤ today ∧ today ≤ start then "ongoing"
    else "upcoming"

def eventHasId (event_id : Nat) : Event → Bool :=
  fun e => e.event_id == event_id

/-- EventService.update_event_status: on-demand status re-derivation. -/
def update_event_status (today now : Nat) (db : List Event) (event_id : Nat) :
    Option Event × List Event :=
  match db.find? (eventHasId event_id) with
  | none => (none, db)
  | some e =>
    (some { e with status := newEventStatus today e, updated_at := now },
      updateFirst (eventHasId event_id)
        (fun x => { x with status := newEventStatus today x, updated_at := now }) db)

/-!
GalleryService (app/services/gallery_service.py, app/models/gallery.py,
app/models/gallery_image.py, app/schemas/gallery.py).
-/

/-- Row of the galleries table. -/
structure Gallery where
  gallery_id : Nat
  name : String
  gallery_type : String
  place_id : Option Nat
  temple_id : Option Nat
  site_id : Option Nat
  event_id : Option Nat
  is_featured : Bool
  view_count : Nat
deriving DecidableEq, Repr

/-- Row of the gallery_images table. -/
structure GalleryImage where
  image_id : Nat
  gallery_id : Nat
  image_url : String
  thumbnail_url : Option String
  title : Option String
  caption : Option String
  photographer : Option String
  image_order : Nat
  is_featured : Bool
  view_count : Nat
deriving DecidableEq, Repr

/-- Kwargs of add_image_to_gallery: the fields of the GalleryImageCreate
schema, which every caller passes as `**image_data.dict()` (so each key is
present and Python truthiness decides the required-field check). -/
structure ImagePayload where
  image_url : String
  thumbnail_url : Option String
  title : Option String
  caption : Option String
  photographer : Option String
  image_order : Nat
deriving DecidableEq, Repr

/-- Python truthiness of an optional string: None and the empty string are
falsy. -/
def truthyOptStr : Option String → Bool
  | none => false
  | some s => s != ""

def galleryHasId (gallery_id : Nat) : Gallery → Bool :=
  fun g => g.gallery_id == gallery_id

/-- Filter `GalleryImage.gallery_id == gid AND is_featured == True`. -/
def imgFeaturedIn (gallery_id : Nat) : GalleryImage → Bool :=
  fun i => i.gallery_id == gallery_id && i.is_featured

/-- Filter `GalleryImage.image_id == iid AND gallery_id == gid`. -/
def imgIdIn (image_id gallery_id : Nat) : GalleryImage → Bool :=
  fun i => i.image_id == image_id && i.gallery_id == gallery_id

/-- Autoincrement primary key for a fresh gallery_images row. -/
def nextImageId (db : List GalleryImage) : Nat :=
  (db.map (fun i => i.image_id)).foldr max 0 + 1

/-- GalleryService.add_image_to_gallery: gallery lookup, then truthiness
check of image_url, title, image_order in that order, then insert (the new
row gets the model defaults is_featured=False, view_count=0). -/
def add_image_to_gallery (galleries : List Gallery) (db : List GalleryImage)
    (gallery_id : Nat) (p : ImagePayload) :
    Except String (Option GalleryImage) × List GalleryImage :=
  match galleries.find? (galleryHasId gallery_id) with
  | none => (Except.ok none, db)
  | some _ =>
    if p.image_url == "" then
      (Except.error ("Missing required field: image_url"), db)
    else if !(truthyOptStr p.title) then
      (Except.error ("Missing required field: title"), db)
    else if p.image_order == 0 then
      (Except.error ("Missing required field: image_order"), db)
    else
      let img : GalleryImage :=
        { image_id := nextImageId db, gallery_id := gallery_id,
          image_url := p.image_url, thumbnail_url := p.thumbnail_url,
          title := p.title, caption := p.caption,
          photographer := p.photographer, image_order := p.image_order,
          is_featured := false, view_count := 0 }
      (Except.ok (some img), db ++ [img])

/-- GalleryService.remove_image_from_gallery. -/
def remove_image_from_gallery (db : List GalleryImage) (image_id : Nat) :
    Bool × List GalleryImage :=
  match db.find? (fun i => i.image_id == image_id) with
  | none => (false, db)
  | some _ => (true, removeFirst (fun i => i.image_id == image_id) db)

/-- Comparison used by `ORDER BY GalleryImage.image_order`. -/
def imgLe (a b : GalleryImage) : Prop := a.image_order ≤ b.image_order

instance : DecidableRel imgLe :=
  fun a b => inferInstanceAs (Decidable (a.image_order ≤ b.image_order))

instance : IsTotal GalleryImage imgLe :=
  ⟨fun a b => Nat.le_total a.image_order b.image_order⟩

instance : IsTrans GalleryImage imgLe := ⟨fun _ _ _ => Nat.le_trans⟩

/-- GalleryService.get_gallery_images: the gallery's images ordered by
image_order. -/
def get_gallery_images (db : List GalleryImage) (gallery_id : Nat) :
    List GalleryImage :=
  List.insertionSort imgLe (db.filter (fun i => i.gallery_id == gallery_id))

/-- GalleryService.reorder_images: for each (image_id, order) entry of the
mapping, look the image up within the gallery and set its order; entries
that do not resolve are skipped; always returns True. -/
def reorder_images (db : List GalleryImage) (gallery_id : Nat)
    (image_order : List (Nat × Nat)) : Bool × List GalleryImage :=
  (true,
    image_order.foldl
      (fun acc e =>
        updateFirst (imgIdIn e.1 gallery_id)
          (fun i => { i with image_order := e.2 }) acc)
      db)

/-- GalleryService.get_featured_image. -/
def get_featured_image (db : List GalleryImage) (gallery_id : Nat) :
    Option GalleryImage :=
  db.find? (imgFeaturedIn gallery_id)

/-- First half of GalleryService.set_featured_image: query the currently
featured image of the gallery and, if there is one, unset its flag. -/
def clear_featured (db : List GalleryImage) (gallery_id : Nat) :
    List GalleryImage :=
  match db.find? (imgFeaturedIn gallery_id) with
  | some _ =>
    updateFirst (imgFeaturedIn gallery_id)
      (fun i => { i with is_featured := false }) db
  | none => db

/-- GalleryService.set_featured_image: first clear the (first) currently
featured image of the gallery, then look up the requested image within the
gallery; if found, flag it and return it, otherwise return None — with the
clearing already applied to the session state. -/
def set_featured_image (db : List GalleryImage) (gallery_id image_id : Nat) :
    Option GalleryImage × List GalleryImage :=
  let db1 := clear_featured db gallery_id
  match db1.find? (imgIdIn image_id gallery_id) with
  | some i =>
    (some { i with is_featured := true },
      updateFirst (imgIdIn image_id gallery_id)
        (fun x => { x with is_featured := true }) db1)
  | none => (none, db1)

/-- Projection to the identifying columns of a gallery_images row. -/
def imgKey (i : GalleryImage) : Nat × Nat := (i.image_id, i.gallery_id)

/-! Concrete fixtures used to exercise the operations. -/

/-- Event with an end date, for exercising the status re-derivation. -/
def exEvent : Event :=
  { event_id := 1, name := "Harvest fair", event_type := "fair",
    description := "d", start_date := 5, end_date := some 8,
    location := "loc", status := "upcoming", is_featured := false,
    updated_at := 0 }

/-- Event with no end date whose start lies in the past and whose stored
status is (explicitly supplied) completed. -/
def exStaleEvent : Event :=
  { event_id := 1, name := "Harvest fair", event_type := "fair",
    description := "d", start_date := 5, end_date := none,
    location := "loc", status := "completed", is_featured := false,
    updated_at := 0 }

/-- A stored place with view_count 0. -/
def exPlace : Place :=
  { place_id := 1, name := "Osam Hill", description := "d",
    category := "place", location := "Gujarat", latitude := none,
    longitude := none, elevation_meters := none, entry_fee := none,
    entry_fee_currency := "INR", best_time_to_visit := none,
    average_visit_duration_hours := none, accessibility := none,
    parking_available := false, public_restrooms := false,
    food_nearby := false, is_featured := false, view_count := 0,
    created_by := none, created_at := 0, updated_at := 0 }

/-- An active admin user. -/
def exAdmin : User :=
  { user_id := 7, username := "root", email := "root@example.com",
    password_hash := "h", first_name := "Ada", last_name := "Admin",
    role := "admin", is_active := true, created_at := 0, updated_at := 0 }

/-- The same account after deactivation. -/
def exInactiveAdmin : User := { exAdmin with is_active := false }

/-- A token for exAdmin signed with the configured key, expiring at 1000. -/
def exToken : Jwt :=
  ⟨{ user_id := 7, username := "root", role := "admin", exp := 1000,
     iat := 0 }, SECRET_KEY⟩

/-- A gallery attached to place 7. -/
def exGallery : Gallery :=
  { gallery_id := 3, name := "Osam Hill Photo Collection",
    gallery_type := "photos", place_id := some 7, temple_id := none,
    site_id := none, event_id := none, is_featured := false,
    view_count := 0 }

/-- Three images of gallery 3 with orders 1, 2, 3 (image 2 featured). -/
def exImages : List GalleryImage :=
  [{ image_id := 1, gallery_id := 3, image_url := "/images/a.jpg",
     thumbnail_url := none, title := some "a", caption := none,
     photographer := none, image_order := 1, is_featured := false,
     view_count := 0 },
   { image_id := 2, gallery_id := 3, image_url := "/images/b.jpg",
     thumbnail_url := none, title := some "b", caption := none,
     photographer := none, image_order := 2, is_featured := true,
     view_count := 0 },
   { image_id := 3, gallery_id := 3, image_url := "/images/c.jpg",
     thumbnail_url := none, title := some "c", caption := none,
     photographer := none, image_order := 3, is_featured := false,
     view_count := 0 }]

/-- A well-formed image payload. -/
def exPayload : ImagePayload :=
  { image_url := "/images/d.jpg", thumbnail_url := none,
    title := some "d", caption := none, photographer := none,
    image_order := 4 }

/-! Generic lemmas about the list helpers. -/

theorem mem_updateFirst {q : α → Bool} {f : α → α} {l : List α} {x : α}
    (h : x ∈ updateFirst q f l) : x ∈ l ∨ ∃ y, y ∈ l ∧ q y = true ∧ x = f y := by
  induction l with
  | nil => simp [updateFirst] at h
  | cons a as ih =>
    simp only [updateFirst] at h
    by_cases hq : q a
    · simp [hq] at h
      rcases h with h | h
      · exact Or.inr ⟨a, List.mem_cons_self a as, hq, h⟩
      · exact Or.inl (List.mem_cons_of_mem a h)
    · simp [hq] at h
      rcases h with h | h
      · exact Or.inl (h ▸ List.mem_cons_self a as)
      · rcases ih h with h2 | ⟨y, hy, hqy, hxy⟩
        · exact Or.inl (List.mem_cons_of_mem a h2)
        · exact Or.inr ⟨y, List.mem_cons_of_mem a hy, hqy, hxy⟩

theorem map_updateFirst {q : α → Bool} {f : α → α} {g : α → β}
    (h : ∀ a, g (f a) = g a) (l : List α) :
    (updateFirst q f l).map g = l.map g := by
  induction l with
  | nil => rfl
  | cons a as ih =>
    simp only [updateFirst]
    by_cases hq : q a
    · simp [hq, h]
    · simp [hq, ih]

theorem countP_updateFirst_le (p q : α → Bool) (f : α → α) (l : List α) :
    (updateFirst q f l).countP p ≤ l.countP p + 1 := by
  induction l with
  | nil => simp [updateFirst]
  | cons a as ih =>
    simp only [updateFirst]
    cases hq : q a with
    | true =>
      simp only [if_true, List.countP_cons]
      split_ifs <;> omega
    | false =>
      simp only [Bool.false_eq_true, if_false, List.countP_cons]
      split_ifs <;> omega

theorem countP_updateFirst_clear {p : α → Bool} {f : α → α}
    (hf : ∀ a, p (f a) = false) {l : List α} (h : l.countP p ≤ 1) :
    (updateFirst p f l).countP p = 0 := by
  induction l with
  | nil => simp [updateFirst]
  | cons a as ih =>
    simp only [updateFirst]
    cases hq : p a with
    | true =>
      simp only [if_true, List.countP_cons, hf, Bool.false_eq_true, if_false]
      simp only [List.countP_cons, hq, if_true] at h
      omega
    | false =>
      simp only [Bool.false_eq_true, if_false, List.countP_cons, hq]
      simp only [List.countP_cons, hq, Bool.false_eq_true, if_false] at h
      have := ih (by omega)
      omega

theorem countP_updateFirst_set {p q : α → Bool} {f : α → α}
    (hq : ∀ a, q a = true → p (f a) = true) {l : List α}
    (h0 : l.countP p = 0) (hex : ∃ x, x ∈ l ∧ q x = true) :
    (updateFirst q f l).countP p = 1 := by
  induction l with
  | nil => rcases hex with ⟨x, hx, _⟩; simp at hx
  | cons a as ih =>
    simp only [List.countP_cons] at h0
    simp only [updateFirst]
    cases hqa : q a with
    | true =>
      simp only [if_true, List.countP_cons, hq a hqa]
      omega
    | false =>
      simp only [Bool.false_eq_true, if_false, List.countP_cons]
      have hex2 : ∃ x, x ∈ as ∧ q x = true := by
        rcases hex with ⟨x, hx, hqx⟩
        rcases List.mem_cons.mp hx with rfl | hx2
        · exact absurd hqx (by simp [hqa])
        · exact ⟨x, hx2, hqx⟩
      have := ih (by omega) hex2
      omega

theorem countP_updateFirst_frame {p q : α → Bool} {f : α → α}
    (h : ∀ a, q a = true → p (f a) = p a) (l : List α) :
    (updateFirst q f l).countP p = l.countP p := by
  induction l with
  | nil => rfl
  | cons a as ih =>
    simp only [updateFirst]
    cases hq : q a with
    | true => simp [List.countP_cons, h a hq]
    | false => simp [Bool.false_eq_true, List.countP_cons, ih]

theorem find?_updateFirst {q : α → Bool} {f : α → α}
    (hqf : ∀ a, q (f a) = q a) (l : List α) :
    (updateFirst q f l).find? q = (l.find? q).map f := by
  induction l with
  | nil => rfl
  | cons a as ih =>
    simp only [updateFirst]
    by_cases hq : q a
    · rw [if_pos hq, List.find?_cons_of_pos _ ((hqf a).symm ▸ hq),
        List.find?_cons_of_pos _ hq]
      rfl
    · rw [if_neg hq, List.find?_cons_of_neg _ hq, List.find?_cons_of_neg _ hq, ih]

theorem updateFirst_updateFirst {q : α → Bool} {f g : α → α}
    (hqf : ∀ a, q (f a) = q a) (l : List α) :
    updateFirst q g (updateFirst q f l) = updateFirst q (fun a => g (f a)) l := by
  induction l with
  | nil => rfl
  | cons a as ih =>
    simp only [updateFirst]
    by_cases hq : q a
    · simp [hq, updateFirst, hqf]
    · simp [hq, updateFirst, ih]

theorem sublist_removeFirst (q : α → Bool) (l : List α) :
    (removeFirst q l).Sublist l := by
  induction l with
  | nil => simp [removeFirst]
  | cons a as ih =>
    simp only [removeFirst]
    cases hq : q a with
    | true =>
      simp only [if_true]
      exact List.sublist_cons_self a as
    | false =>
      simp only [Bool.false_eq_true, if_false]
      exact List.Sublist.cons₂ a ih

theorem exists_find?_of_countP_pos {p : α → Bool} {l : List α}
    (h : 0 < l.countP p) : ∃ x, l.find? p = some x ∧ p x = true := by
  induction l with
  | nil => simp at h
  | cons a as ih =>
    cases hq : p a with
    | true => exact ⟨a, List.find?_cons_of_pos _ hq, hq⟩
    | false =>
      simp only [List.countP_cons, hq, Bool.false_eq_true, if_false] at h
      rcases ih (by omega) with ⟨x, hx, hpx⟩
      refine ⟨x, ?_, hpx⟩
      rw [List.find?_cons_of_neg _ (by simp [hq])]
      exact hx

theorem map_if_eq_self {q : α → Bool} {f : α → α} {l : List α}
    (h : ∀ x ∈ l, q x = false) :
    l.map (fun x => if q x then f x else x) = l := by
  induction l with
  | nil => rfl
  | cons a as ih =>
    have ha := h a (List.mem_cons_self a as)
    simp only [List.map_cons, ha, Bool.false_eq_true, if_false]
    rw [ih (fun x hx => h x (List.mem_cons_of_mem a hx))]

theorem updateFirst_eq_map_of_unique {q : α → Bool} {f : α → α} {l : List α}
    (h : l.countP q ≤ 1) :
    updateFirst q f l = l.map (fun x => if q x then f x else x) := by
  induction l with
  | nil => rfl
  | cons a as ih =>
    simp only [updateFirst, List.map_cons]
    cases hq : q a with
    | true =>
      simp only [if_true]
      have h0 : as.countP q = 0 := by
        simp only [List.countP_cons, hq, if_true] at h
        omega
      rw [map_if_eq_self (fun x hx => by
        have := List.countP_eq_zero.mp h0 x hx
        simpa using this)]
    | false =>
      simp only [Bool.false_eq_true, if_false]
      simp only [List.countP_cons, hq, Bool.false_eq_true, if_false] at h
      rw [ih (by omega)]

theorem countP_le_one_of_nodup_map {l : List α} {h : α → β} {q : α → Bool} {k : β}
    (hnd : (l.map h).Nodup) (hk : ∀ x, q x = true → h x = k) :
    l.countP q ≤ 1 := by
  induction l with
  | nil => simp
  | cons a as ih =>
    simp only [List.map_cons, List.nodup_cons] at hnd
    cases hq : q a with
    | true =>
      have h0 : as.countP q = 0 := by
        rw [List.countP_eq_zero]
        intro x hx
        intro hqx
        exact hnd.1 (by
          rw [hk a hq, ← hk x hqx]
          exact List.mem_map_of_mem h hx)
      simp [List.countP_cons, hq, h0]
    | false =>
      simp only [List.countP_cons, hq, Bool.false_eq_true, if_false]
      have := ih hnd.2
      omega

theorem updateFirst_found_eq {q : α → Bool} {f g : α → α} {l : List α} {y : α}
    (h : l.find? q = some y) (hfg : f y = g y) :
    updateFirst q f l = updateFirst q g l := by
  induction l with
  | nil => simp at h
  | cons a as ih =>
    simp only [updateFirst]
    cases hq : q a with
    | true =>
      rw [List.find?_cons_of_pos _ hq] at h
      cases h
      simp [hfg]
    | false =>
      rw [List.find?_cons_of_neg _ (by simp [hq])] at h
      simp only [Bool.false_eq_true, if_false]
      rw [ih h]

/-! Lemmas relating the event status transition of the code to the
transition rule of the specification. -/

theorem newEventStatus_eq (today : Nat) (e : Event) :
    newEventStatus today e =
      if e.end_date = none ∧ e.start_date < today then e.status
      else specEventStatus today e.start_date e.end_date := by
  cases hd : e.end_date with
  | some d =>
    simp only [newEventStatus, specEventStatus, hd]
    have : ¬ (some d = none ∧ e.start_date < today) := by simp
    rw [if_neg this]
    split_ifs <;> first | rfl | omega
  | none =>
    simp only [newEventStatus, specEventStatus, hd, true_and]
    split_ifs <;> first | rfl | omega

/-! Lemmas about single-field updates of a Place. -/

theorem setPlaceField_place_id (p : Place) (f : PlaceField) :
    (setPlaceField p f).place_id = p.place_id := by
  cases f <;> rfl

theorem setPlaceField_view_count (p : Place) (f : PlaceField) :
    (setPlaceField p f).view_count = p.view_count := by
  cases f <;> rfl

theorem setPlaceField_updated_at (p : Place) (f : PlaceField) :
    (setPlaceField p f).updated_at = p.updated_at := by
  cases f <;> rfl

theorem setPlaceField_view_count_comm (p : Place) (f : PlaceField) (n : Nat) :
    setPlaceField { p with view_count := n } f =
      { setPlaceField p f with view_count := n } := by
  cases f <;> rfl

/-- C1 (counterexample): for an event with start_date 5, no end date and
stored status completed, re-derivation at reference date 10 keeps the
stored status, whereas the claimed three-way rule yields upcoming. -/
theorem update_event_status_stale_counterexample :
    ((update_event_status 10 100 [exStaleEvent] 1).1.map
      (fun e => e.status)) = some ("completed") ∧
    specEventStatus 10 5 none = "upcoming" ∧
    ("completed" : String) ≠ "upcoming" :=
  ⟨rfl, rfl, by decide⟩

/-- C1 (amended): update_event_status replaces the stored event by the event
whose status follows the three-way date rule, except that when the event has
no end date and the reference date is strictly after the start date no
branch fires and the previously stored status is retained; updated_at is
refreshed in every case. -/
theorem update_event_status_derivation (today now : Nat) (db : List Event)
    (eid : Nat) (e : Event) (h : db.find? (eventHasId eid) = some e) :
    update_event_status today now db eid =
      (some { e with
          status := if e.end_date = none ∧ e.start_date < today then e.status
            else specEventStatus today e.start_date e.end_date,
          updated_at := now },
        updateFirst (eventHasId eid)
          (fun _ => { e with
            status := if e.end_date = none ∧ e.start_date < today then e.status
              else specEventStatus today e.start_date e.end_date,
            updated_at := now }) db) := by
  have h2 :
      updateFirst (eventHasId eid)
        (fun x => { x with status := newEventStatus today x, updated_at := now }) db =
      updateFirst (eventHasId eid)
        (fun _ => { e with
          status := if e.end_date = none ∧ e.start_date < today then e.status
            else specEventStatus today e.start_date e.end_date,
          updated_at := now }) db :=
    updateFirst_found_eq h (by rw [newEventStatus_eq])
  simp only [update_event_status, h]
  rw [newEventStatus_eq, h2]

/-- C1 (witness): the amended derivation theorem applied to a concrete event
whose end date 8 lies strictly before the reference date 10 derives the
status completed. -/
theorem update_event_status_derivation_witness :
    (([exEvent] : List Event).find? (eventHasId 1) = some exEvent) ∧
    ((update_event_status 10 99 [exEvent] 1).1.map
      (fun e => e.status)) = some ("completed") := by
  refine ⟨rfl, ?_⟩
  have h := update_event_status_derivation 10 99 [exEvent] 1 exEvent rfl
  rw [h]
  rfl

/-- C2 (counterexample): updating only the name of a stored place with
view_count 0 leaves the stored view_count at 1 — the update operation itself
increments the view counter through its internal get_by_id lookup. -/
theorem place_update_view_count_counterexample :
    ((place_update 50 [exPlace] 1 (PlaceField.name ("X"))).2.map
      (fun p => p.view_count)) = [1] ∧
    exPlace.view_count = 0 ∧ (1 : Nat) ≠ 0 :=
  ⟨rfl, rfl, by decide⟩

/-- C2 (amended): updating a single supplied model field followed by
get_by_id returns the pre-update entity with exactly that field replaced,
updated_at refreshed, and view_count larger by 2 (one increment from the
lookup inside update, one from the subsequent get_by_id); every other
stored field is unchanged. -/
theorem place_update_frame (now : Nat) (db : List Place) (pid : Nat)
    (f : PlaceField) (p : Place)
    (hfind : db.find? (placeHasId pid) = some p)
    (hcat : placeCategoryInvalid f = false) :
    (place_update now db pid f).1 =
      Except.ok (some { setPlaceField p f with
        view_count := p.view_count + 1, updated_at := now }) ∧
    (place_get_by_id (place_update now db pid f).2 pid).1 =
      some { setPlaceField p f with
        view_count := p.view_count + 2, updated_at := now } := by
  have hq_incr : ∀ x : Place,
      placeHasId pid { x with view_count := x.view_count + 1 } =
        placeHasId pid x := fun _ => rfl
  have hq_g : ∀ x : Place,
      placeHasId pid { setPlaceField x f with updated_at := now } =
        placeHasId pid x := by
    intro x
    simp [placeHasId, setPlaceField_place_id]
  have hstep : place_update now db pid f =
      (Except.ok (some { setPlaceField p f with
          view_count := p.view_count + 1, updated_at := now }),
        updateFirst (placeHasId pid)
          (fun x => { setPlaceField x f with updated_at := now })
          (updateFirst (placeHasId pid)
            (fun x => { x with view_count := x.view_count + 1 }) db)) := by
    simp only [place_update, place_get_by_id, hfind, hcat, Bool.false_eq_true,
      if_false]
    rw [setPlaceField_view_count_comm]
  refine ⟨by rw [hstep], ?_⟩
  rw [hstep]
  simp only [place_get_by_id]
  rw [updateFirst_updateFirst hq_incr,
    find?_updateFirst (fun a => by rw [hq_g, hq_incr]) db, hfind]
  simp only [Option.map_some']
  rw [setPlaceField_view_count_comm]

/-- C2 (witness): the amended frame theorem applied to a concrete update of
the description of a place with view_count 0, observed through get_by_id:
the description is the new value, view_count is 2, updated_at is 50. -/
theorem place_update_frame_witness :
    (([exPlace] : List Place).find? (placeHasId 1) = some exPlace) ∧
    (placeCategoryInvalid (PlaceField.description ("new")) = false) ∧
    ((place_get_by_id
        (place_update 50 [exPlace] 1 (PlaceField.description ("new"))).2 1).1.map
      (fun p => (p.description, p.view_count, p.updated_at))) =
      some (("new"), 2, 50) := by
  refine ⟨rfl, rfl, ?_⟩
  have h := (place_update_frame 50 [exPlace] 1 (PlaceField.description ("new"))
    exPlace rfl rfl).2
  rw [h]
  rfl

/-- C3: for any correctly signed, unexpired token naming a nonzero user id,
if the referenced user is absent from the store or deactivated, the guard
path fails with exactly the same 401 outcome in both cases, even though
token verification alone still returns the embedded claims. -/
theorem guard_inactive_unauthenticated (now : Nat) (tok : Jwt) (db : List User)
    (hkey : tok.key = SECRET_KEY) (hexp : now ≤ tok.payload.exp)
    (hid : tok.payload.user_id ≠ 0)
    (huser : get_user_by_id db tok.payload.user_id = none ∨
      ∃ u, get_user_by_id db tok.payload.user_id = some u ∧ u.is_active = false) :
    verify_token now tok = some tok.payload ∧
    get_current_user now tok db =
      Except.error ⟨401, ("User not found or inactive")⟩ := by
  have hv : verify_token now tok = some tok.payload := by
    simp [verify_token, jwt_decode, hkey, hexp]
  refine ⟨hv, ?_⟩
  simp only [get_current_user, hv]
  rw [if_neg hid]
  rcases huser with h | ⟨u, hu, hact⟩
  · rw [h]
  · rw [hu]
    simp [hact]

/-- C3 (witness): the guard theorem applied to a deactivated admin holding a
still-unexpired token. -/
theorem guard_inactive_unauthenticated_witness :
    (exToken.key = SECRET_KEY) ∧ (5 ≤ exToken.payload.exp) ∧
    (exToken.payload.user_id ≠ 0) ∧
    (∃ u, get_user_by_id [exInactiveAdmin] exToken.payload.user_id = some u ∧
      u.is_active = false) ∧
    (verify_token 5 exToken = some exToken.payload ∧
      get_current_user 5 exToken [exInactiveAdmin] =
        Except.error ⟨401, ("User not found or inactive")⟩) := by
  refine ⟨rfl, by decide, by decide, ⟨exInactiveAdmin, rfl, rfl⟩, ?_⟩
  exact guard_inactive_unauthenticated 5 exToken [exInactiveAdmin] rfl
    (by decide) (by decide) (Or.inr ⟨exInactiveAdmin, rfl, rfl⟩)

/-- C4: issue embeds exactly the three identity fields with expiry equal to
issued-at plus the fixed 3600-second TTL and returns ttl_seconds 3600;
verify accepts the token strictly before the expiry and rejects it strictly
after. -/
theorem token_lifecycle (now user_id : Nat) (username role : String) (t : Nat) :
    (create_access_token now user_id username role).2 = 3600 ∧
    (create_access_token now user_id username role).1.payload =
      { user_id := user_id, username := username, role := role,
        exp := now + 3600, iat := now } ∧
    (t < now + 3600 →
      verify_token t (create_access_token now user_id username role).1 =
        some ({ user_id := user_id, username := username, role := role,
                exp := now + 3600, iat := now } : Claims)) ∧
    (now + 3600 < t →
      verify_token t (create_access_token now user_id username role).1 = none) := by
  refine ⟨rfl, rfl, ?_, ?_⟩
  · intro ht
    simp only [verify_token, jwt_decode, create_access_token, jwt_encode,
      ACCESS_TOKEN_EXPIRE_MINUTES]
    rw [if_pos ⟨by trivial, by omega⟩]
  · intro ht
    simp only [verify_token, jwt_decode, create_access_token, jwt_encode,
      ACCESS_TOKEN_EXPIRE_MINUTES]
    rw [if_neg]
    rintro ⟨-, h2⟩
    omega

/-- C4 (witness): a token issued at 0 is accepted at 3599 and rejected at
3601. -/
theorem token_lifecycle_witness :
    (3599 < 0 + 3600) ∧ (0 + 3600 < 3601) ∧
    verify_token 3599 (create_access_token 0 1 ("alice") ("admin")).1 =
      some ({ user_id := 1, username := ("alice"), role := ("admin"),
              exp := 0 + 3600, iat := 0 } : Claims) ∧
    verify_token 3601 (create_access_token 0 1 ("alice") ("admin")).1 = none := by
  refine ⟨by decide, by decide, ?_, ?_⟩
  · exact (token_lifecycle 0 1 ("alice") ("admin") 3599).2.2.1 (by decide)
  · exact (token_lifecycle 0 1 ("alice") ("admin") 3601).2.2.2 (by decide)

/-- C6 (counterexample): a concrete admin deleting their own id is rejected
with HTTP status 400 (bad request), not the claimed 403 forbidden kind. -/
theorem self_delete_status_counterexample :
    admin_delete_user exAdmin exAdmin.user_id [exAdmin] =
      (Except.error ⟨400, ("Cannot delete your own account")⟩, [exAdmin]) ∧
    (400 : Nat) ≠ 403 :=
  ⟨rfl, by decide⟩

/-- C6 (amended): an admin deleting their own id is rejected before any
store mutation (the user store is returned unchanged), but the failure kind
is HTTP 400 bad request rather than 403 forbidden. -/
theorem self_delete_rejected_before_mutation (cu : User) (db : List User) :
    admin_delete_user cu cu.user_id db =
      (Except.error ⟨400, ("Cannot delete your own account")⟩, db) := by
  simp [admin_delete_user]

/-- C7: deactivate_user on an existing user never returns success — the
`self._commit(user)` call raises TypeError (and the endpoint cannot even
construct `UserService(db)`, which raises TypeError in `__init__`). -/
theorem deactivate_user_type_error (now : Nat) (db : List User) (uid : Nat)
    (h : ∃ u, get_user_by_id db uid = some u) :
    (deactivate_user now db uid).1 = Except.error commit_type_error ∧
    admin_deactivate_user db uid =
      (Except.error userservice_init_type_error, db) := by
  rcases h with ⟨u, hu⟩
  refine ⟨?_, rfl⟩
  simp [deactivate_user, hu]

/-- C7 (witness): deactivating the concrete stored admin raises. -/
theorem deactivate_user_type_error_witness :
    (∃ u, get_user_by_id [exAdmin] 7 = some u) ∧
    (deactivate_user 11 [exAdmin] 7).1 = Except.error commit_type_error := by
  refine ⟨⟨exAdmin, rfl⟩, ?_⟩
  exact (deactivate_user_type_error 11 [exAdmin] 7 ⟨exAdmin, rfl⟩).1

/-- C10: for an existing gallery, the required-field check tests image_url,
title and image_order by Python truthiness, so an empty image_url, a missing
or empty title, or image_order 0 is rejected with a Missing-required-field
error and the image table is unchanged; consequently an image accepted by
this operation never has order 0, and carries exactly the requested order. -/
theorem add_image_truthiness (galleries : List Gallery)
    (db : List GalleryImage) (gid : Nat) (p : ImagePayload)
    (hg : (galleries.find? (galleryHasId gid)).isSome) :
    ((p.image_url = "" ∨ truthyOptStr p.title = false ∨ p.image_order = 0) →
      ∃ msg, msg ∈ ([("Missing required field: image_url"),
          ("Missing required field: title"),
          ("Missing required field: image_order")] : List String) ∧
        add_image_to_gallery galleries db gid p = (Except.error msg, db)) ∧
    (∀ img db2,
      add_image_to_gallery galleries db gid p = (Except.ok (some img), db2) →
      img.image_order ≠ 0 ∧ img.image_order = p.image_order) := by
  rcases Option.isSome_iff_exists.mp hg with ⟨g, hgs⟩
  constructor
  · intro hbad
    cases hurl : p.image_url == "" with
    | true =>
      refine ⟨("Missing required field: image_url"), by simp, ?_⟩
      simp [add_image_to_gallery, hgs, hurl]
    | false =>
      cases htitle : truthyOptStr p.title with
      | false =>
        refine ⟨("Missing required field: title"), by simp, ?_⟩
        simp [add_image_to_gallery, hgs, hurl, htitle]
      | true =>
        cases hord : p.image_order == 0 with
        | true =>
          refine ⟨("Missing required field: image_order"), by simp, ?_⟩
          simp [add_image_to_gallery, hgs, hurl, htitle, hord]
        | false =>
          exfalso
          rcases hbad with h | h | h
          · rw [h] at hurl
            simp at hurl
          · rw [h] at htitle
            simp at htitle
          · rw [h] at hord
            simp at hord
  · intro img db2 hok
    cases hurl : p.image_url == "" with
    | true => simp [add_image_to_gallery, hgs, hurl] at hok
    | false =>
      cases htitle : truthyOptStr p.title with
      | false => simp [add_image_to_gallery, hgs, hurl, htitle] at hok
      | true =>
        cases hord : p.image_order == 0 with
        | true => simp [add_image_to_gallery, hgs, hurl, htitle, hord] at hok
        | false =>
          simp [add_image_to_gallery, hgs, hurl, htitle, hord] at hok
          have h0 : p.image_order ≠ 0 := by
            intro h
            rw [h] at hord
            simp at hord
          have horder : img.image_order = p.image_order := by
            rw [← hok.1]
          exact ⟨by rw [horder]; exact h0, horder⟩

/-- C10 (witness): with the concrete gallery present, a payload carrying
image_order 0 is rejected with a Missing-required-field error and the
stored images are untouched; the well-formed payload with order 4 yields an
image of order 4. -/
theorem add_image_truthiness_witness :
    ((([exGallery] : List Gallery).find? (galleryHasId 3)).isSome) ∧
    (∃ msg, msg ∈ ([("Missing required field: image_url"),
        ("Missing required field: title"),
        ("Missing required field: image_order")] : List String) ∧
      add_image_to_gallery [exGallery] exImages 3
        { exPayload with image_order := 0 } = (Except.error msg, exImages)) := by
  refine ⟨by decide, ?_⟩
  exact (add_image_truthiness [exGallery] exImages 3
    { exPayload with image_order := 0 } (by decide)).1 (Or.inr (Or.inr rfl))

/-! Lemmas about the gallery predicates and the featured-flag operations. -/

theorem imgFeaturedIn_clear_false (gid : Nat) (a : GalleryImage) :
    imgFeaturedIn gid { a with is_featured := false } = false := by
  simp [imgFeaturedIn]

theorem imgIdIn_spec {a : GalleryImage} {iid gid : Nat}
    (h : imgIdIn iid gid a = true) : a.image_id = iid ∧ a.gallery_id = gid := by
  simpa [imgIdIn] using h

theorem imgFeaturedIn_spec {a : GalleryImage} {gid : Nat}
    (h : imgFeaturedIn gid a = true) :
    a.gallery_id = gid ∧ a.is_featured = true := by
  simpa [imgFeaturedIn] using h

theorem imgIdIn_of_imgKey {a : GalleryImage} {iid gid : Nat}
    (h : imgKey a = (iid, gid)) : imgIdIn iid gid a = true := by
  simp only [imgKey, Prod.mk.injEq] at h
  simp [imgIdIn, h.1, h.2]

theorem clear_featured_count {db : List GalleryImage} {gid : Nat}
    (hinv : db.countP (imgFeaturedIn gid) ≤ 1) :
    (clear_featured db gid).countP (imgFeaturedIn gid) = 0 := by
  unfold clear_featured
  cases hf : db.find? (imgFeaturedIn gid) with
  | none =>
    rw [List.countP_eq_zero]
    exact List.find?_eq_none.mp hf
  | some f =>
    exact countP_updateFirst_clear (fun a => imgFeaturedIn_clear_false gid a) hinv

theorem clear_featured_key (db : List GalleryImage) (gid : Nat) :
    (clear_featured db gid).map imgKey = db.map imgKey := by
  unfold clear_featured
  cases db.find? (imgFeaturedIn gid) with
  | none => rfl
  | some f =>
    exact @map_updateFirst GalleryImage (Nat × Nat) (imgFeaturedIn gid)
      (fun i => { i with is_featured := false }) imgKey (fun a => rfl) db

theorem clear_featured_count_other (db : List GalleryImage) {gid gid2 : Nat}
    (hne : gid ≠ gid2) :
    (clear_featured db gid2).countP (imgFeaturedIn gid) =
      db.countP (imgFeaturedIn gid) := by
  unfold clear_featured
  cases db.find? (imgFeaturedIn gid2) with
  | none => rfl
  | some f =>
    apply countP_updateFirst_frame
    intro a ha
    have h2 := imgFeaturedIn_spec ha
    have hb : (a.gallery_id == gid) = false :=
      beq_eq_false_iff_ne.mpr (by rw [h2.1]; exact Ne.symm hne)
    simp [imgFeaturedIn, hb]

theorem set_featured_found_state (db : List GalleryImage) (gid iid : Nat)
    (hinv : db.countP (imgFeaturedIn gid) ≤ 1)
    (hmem : (iid, gid) ∈ db.map imgKey) :
    (set_featured_image db gid iid).2.countP (imgFeaturedIn gid) = 1 ∧
    (∀ x ∈ (set_featured_image db gid iid).2,
      imgFeaturedIn gid x = true → x.image_id = iid) ∧
    (set_featured_image db gid iid).2.map imgKey = db.map imgKey := by
  have h0 := clear_featured_count hinv
  have hkey := clear_featured_key db gid
  have hmem1 : (iid, gid) ∈ (clear_featured db gid).map imgKey := by
    rw [hkey]; exact hmem
  rcases List.mem_map.mp hmem1 with ⟨y, hy, hky⟩
  have hqy : imgIdIn iid gid y = true := imgIdIn_of_imgKey hky
  obtain ⟨i, hi⟩ : ∃ i, (clear_featured db gid).find? (imgIdIn iid gid) = some i := by
    cases hf : (clear_featured db gid).find? (imgIdIn iid gid) with
    | some i => exact ⟨i, rfl⟩
    | none => exact absurd hqy (List.find?_eq_none.mp hf y hy)
  have hset : set_featured_image db gid iid =
      (some { i with is_featured := true },
        updateFirst (imgIdIn iid gid) (fun x => { x with is_featured := true })
          (clear_featured db gid)) := by
    simp only [set_featured_image, hi]
  rw [hset]
  refine ⟨?_, ?_, ?_⟩
  · exact countP_updateFirst_set
      (fun a ha => by
        have h2 := imgIdIn_spec ha
        simp [imgFeaturedIn, h2.2])
      h0 ⟨y, hy, hqy⟩
  · intro x hx hpx
    rcases mem_updateFirst hx with hmem2 | ⟨z, hz, hqz, hxz⟩
    · exact absurd hpx (List.countP_eq_zero.mp h0 x hmem2)
    · rw [hxz]
      exact (imgIdIn_spec hqz).1
  · show List.map imgKey
        (updateFirst (imgIdIn iid gid) (fun x => { x with is_featured := true })
          (clear_featured db gid)) = List.map imgKey db
    rw [@map_updateFirst GalleryImage (Nat × Nat) (imgIdIn iid gid)
      (fun x => { x with is_featured := true }) imgKey (fun a => rfl)
      (clear_featured db gid)]
    exact hkey

theorem set_featured_preserves_inv (db : List GalleryImage) (gid gid2 iid : Nat)
    (hinv : db.countP (imgFeaturedIn gid) ≤ 1) :
    (set_featured_image db gid2 iid).2.countP (imgFeaturedIn gid) ≤ 1 := by
  by_cases hg : gid = gid2
  · subst hg
    have h0 := clear_featured_count hinv
    cases hf : (clear_featured db gid).find? (imgIdIn iid gid) with
    | none =>
      simp only [set_featured_image, hf]
      omega
    | some i =>
      simp only [set_featured_image, hf]
      have := countP_updateFirst_le (imgFeaturedIn gid) (imgIdIn iid gid)
        (fun x => { x with is_featured := true }) (clear_featured db gid)
      omega
  · have h1 := @clear_featured_count_other db gid gid2 hg
    cases hf : (clear_featured db gid2).find? (imgIdIn iid gid2) with
    | none =>
      simp only [set_featured_image, hf]
      omega
    | some i =>
      simp only [set_featured_image, hf]
      rw [countP_updateFirst_frame (fun a ha => by
        have h2 := imgIdIn_spec ha
        have hb : (a.gallery_id == gid) = false :=
          beq_eq_false_iff_ne.mpr (by rw [h2.2]; exact Ne.symm hg)
        simp [imgFeaturedIn, hb])]
      omega

/-- C5: at most one image per gallery carries the featured flag, and this is
preserved by adding an image (inserted unflagged), by removing an image and
by set_featured_image (which unsets the prior featured image before setting
the new one, for the target gallery as well as for every other gallery);
moreover after set_featured_image A then set_featured_image B on two stored
images of the gallery, get_featured_image returns the image B and every
stored copy of image A in that gallery is unflagged. -/
theorem featured_invariant :
    (∀ galleries db gid gid2 p,
      db.countP (imgFeaturedIn gid) ≤ 1 →
      (add_image_to_gallery galleries db gid2 p).2.countP (imgFeaturedIn gid) ≤ 1) ∧
    (∀ db gid iid,
      db.countP (imgFeaturedIn gid) ≤ 1 →
      (remove_image_from_gallery db iid).2.countP (imgFeaturedIn gid) ≤ 1) ∧
    (∀ db gid gid2 iid,
      db.countP (imgFeaturedIn gid) ≤ 1 →
      (set_featured_image db gid2 iid).2.countP (imgFeaturedIn gid) ≤ 1) ∧
    (∀ db gid A B, A ≠ B →
      db.countP (imgFeaturedIn gid) ≤ 1 →
      (A, gid) ∈ db.map imgKey → (B, gid) ∈ db.map imgKey →
      (∃ x, get_featured_image
          (set_featured_image (set_featured_image db gid A).2 gid B).2 gid =
            some x ∧ x.image_id = B) ∧
      (∀ y ∈ (set_featured_image (set_featured_image db gid A).2 gid B).2,
        y.image_id = A → y.gallery_id = gid → y.is_featured = false)) := by
  refine ⟨?_, ?_, ?_, ?_⟩
  · intro galleries db gid gid2 p hinv
    cases hg : galleries.find? (galleryHasId gid2) with
    | none => simpa [add_image_to_gallery, hg] using hinv
    | some g =>
      simp only [add_image_to_gallery, hg]
      split_ifs with h1 h2 h3
      · exact hinv
      · exact hinv
      · exact hinv
      · rw [List.countP_append]
        simp [List.countP_cons, imgFeaturedIn]
        omega
  · intro db gid iid hinv
    cases hf : db.find? (fun i => i.image_id == iid) with
    | none => simpa [remove_image_from_gallery, hf] using hinv
    | some i =>
      simp only [remove_image_from_gallery, hf]
      have := (sublist_removeFirst (fun i => i.image_id == iid) db).countP_le
        (imgFeaturedIn gid)
      omega
  · intro db gid gid2 iid hinv
    exact set_featured_preserves_inv db gid gid2 iid hinv
  · intro db gid A B hAB hinv hA hB
    obtain ⟨hc1, hid1, hk1⟩ := set_featured_found_state db gid A hinv hA
    have hB1 : (B, gid) ∈ ((set_featured_image db gid A).2.map imgKey) := by
      rw [hk1]; exact hB
    obtain ⟨hc2, hid2, hk2⟩ :=
      set_featured_found_state (set_featured_image db gid A).2 gid B
        (by omega) hB1
    constructor
    · rcases @exists_find?_of_countP_pos GalleryImage (imgFeaturedIn gid)
        ((set_featured_image (set_featured_image db gid A).2 gid B).2)
        (by omega) with ⟨x, hx, hpx⟩
      exact ⟨x, hx, hid2 x (List.mem_of_find?_eq_some hx) hpx⟩
    · intro y hy hyA hygid
      cases hyf : y.is_featured with
      | false => rfl
      | true =>
        have hfeat : imgFeaturedIn gid y = true := by
          simp [imgFeaturedIn, hygid, hyf]
        have := hid2 y hy hfeat
        exact absurd (hyA ▸ this) hAB

/-- C5 (witness): the invariant-and-scenario theorem applied to the stored
images of gallery 3 (one image currently featured): after featuring image 1
then image 3, the featured image is image 3. -/
theorem featured_invariant_witness :
    ((1 : Nat) ≠ 3) ∧
    (exImages.countP (imgFeaturedIn 3) ≤ 1) ∧
    ((1, 3) ∈ exImages.map imgKey) ∧ ((3, 3) ∈ exImages.map imgKey) ∧
    (∃ x, get_featured_image
        (set_featured_image (set_featured_image exImages 3 1).2 3 3).2 3 =
          some x ∧ x.image_id = 3) := by
  refine ⟨by decide, by decide, by decide, by decide, ?_⟩
  exact (featured_invariant.2.2.2 exImages 3 1 3 (by decide) (by decide)
    (by decide) (by decide)).1

/-- C9: when a gallery has a featured image and set_featured_image is called
with an image id that does not resolve within that gallery, the call returns
the not-found outcome, yet the previously featured flag has been cleared:
the gallery is left with no featured image and the state differs from the
pre-call state. -/
theorem set_featured_missing_clears (db : List GalleryImage) (gid iid : Nat)
    (hinv : db.countP (imgFeaturedIn gid) ≤ 1)
    (hfeat : (get_featured_image db gid).isSome)
    (hmiss : db.find? (imgIdIn iid gid) = none) :
    (set_featured_image db gid iid).1 = none ∧
    get_featured_image (set_featured_image db gid iid).2 gid = none ∧
    (set_featured_image db gid iid).2 ≠ db := by
  have h0 := clear_featured_count hinv
  have hmiss1 : (clear_featured db gid).find? (imgIdIn iid gid) = none := by
    rw [List.find?_eq_none]
    intro x hx hqx
    revert hx
    unfold clear_featured
    cases hf : db.find? (imgFeaturedIn gid) with
    | none =>
      intro hx
      exact List.find?_eq_none.mp hmiss x hx hqx
    | some f =>
      intro hx
      rcases mem_updateFirst hx with hxm | ⟨y, hy, hqy, hxy⟩
      · exact List.find?_eq_none.mp hmiss x hxm hqx
      · refine List.find?_eq_none.mp hmiss y hy ?_
        rw [hxy] at hqx
        simpa [imgIdIn] using hqx
  have hstate : set_featured_image db gid iid = (none, clear_featured db gid) := by
    simp only [set_featured_image, hmiss1]
  have hnone : (clear_featured db gid).find? (imgFeaturedIn gid) = none := by
    rw [List.find?_eq_none]
    exact List.countP_eq_zero.mp h0
  rw [hstate]
  refine ⟨rfl, hnone, ?_⟩
  intro heq
  rcases Option.isSome_iff_exists.mp hfeat with ⟨f, hf⟩
  have h2 : db.find? (imgFeaturedIn gid) = none := by
    rw [← heq]
    exact hnone
  simp [get_featured_image, h2] at hf

/-- C9 (witness): requesting the nonexistent image 99 as featured image of
gallery 3 returns the not-found outcome and leaves the gallery with no
featured image, although image 2 was featured before the call. -/
theorem set_featured_missing_clears_witness :
    (exImages.countP (imgFeaturedIn 3) ≤ 1) ∧
    ((get_featured_image exImages 3).isSome) ∧
    (exImages.find? (imgIdIn 99 3) = none) ∧
    ((set_featured_image exImages 3 99).1 = none ∧
      get_featured_image (set_featured_image exImages 3 99).2 3 = none) := by
  refine ⟨by decide, by decide, by decide, ?_⟩
  have h := set_featured_missing_clears exImages 3 99 (by decide) (by decide)
    (by decide)
  exact ⟨h.1, h.2.1⟩

/-! Lemmas for the reorder characterization. -/

theorem lookup_eq_none_of_not_mem {k : Nat} {m : List (Nat × Nat)}
    (h : k ∉ m.map Prod.fst) : List.lookup k m = none := by
  induction m with
  | nil => rfl
  | cons e es ih =>
    obtain ⟨k1, v1⟩ := e
    simp only [List.map_cons, List.mem_cons] at h
    push_neg at h
    have hb : (k == k1) = false := beq_eq_false_iff_ne.mpr h.1
    simp [List.lookup, hb, ih h.2]

theorem reorder_foldl_eq (gid : Nat) :
    ∀ (m : List (Nat × Nat)) (db : List GalleryImage),
      (db.map (fun i => i.image_id)).Nodup →
      (m.map Prod.fst).Nodup →
      (reorder_images db gid m).2 = db.map (fun i =>
        match List.lookup i.image_id m with
        | some o => if i.gallery_id == gid then { i with image_order := o } else i
        | none => i) := by
  intro m
  induction m with
  | nil =>
    intro db _ _
    simp [reorder_images, List.lookup]
  | cons e es ih =>
    obtain ⟨k, o⟩ := e
    intro db hids hkeys
    have hkeys2 := List.nodup_cons.mp hkeys
    have hcount : db.countP (imgIdIn k gid) ≤ 1 :=
      countP_le_one_of_nodup_map hids (fun x hx => (imgIdIn_spec hx).1)
    have hdb1 : updateFirst (imgIdIn k gid)
        (fun i => { i with image_order := o }) db =
        db.map (fun x => if imgIdIn k gid x then { x with image_order := o } else x) :=
      updateFirst_eq_map_of_unique hcount
    have hids1 : ((updateFirst (imgIdIn k gid)
        (fun i => { i with image_order := o }) db).map
          (fun i => i.image_id)).Nodup := by
      rw [@map_updateFirst GalleryImage Nat (imgIdIn k gid)
        (fun i => { i with image_order := o }) (fun i => i.image_id)
        (fun a => rfl) db]
      exact hids
    have hrec := ih (updateFirst (imgIdIn k gid)
      (fun i => { i with image_order := o }) db) hids1 hkeys2.2
    simp only [reorder_images, List.foldl_cons] at hrec ⊢
    rw [hrec, hdb1, List.map_map]
    apply List.map_congr_left
    intro x _
    simp only [Function.comp]
    by_cases hxk : x.image_id = k
    · have hlookc : List.lookup x.image_id ((k, o) :: es) = some o := by
        simp [List.lookup, hxk]
      have hlooke : List.lookup x.image_id es = none :=
        lookup_eq_none_of_not_mem (by rw [hxk]; exact hkeys2.1)
      cases hg : x.gallery_id == gid with
      | true =>
        have hq : imgIdIn k gid x = true := by simp [imgIdIn, hxk, hg]
        simp [hq, hlookc, hlooke, hg]
      | false =>
        have hq : imgIdIn k gid x = false := by simp [imgIdIn, hg]
        simp [hq, hlookc, hlooke, hg]
    · have hb : (x.image_id == k) = false := beq_eq_false_iff_ne.mpr hxk
      have hq : imgIdIn k gid x = false := by simp [imgIdIn, hb]
      have hlookc : List.lookup x.image_id ((k, o) :: es) =
          List.lookup x.image_id es := by
        simp [List.lookup, hb]
      simp [hq, hlookc]

/-- C8: with unique image ids and unique mapping keys, reorder_images
rewrites the store pointwise — every image of the gallery named by the
mapping receives its mapped order, every other image keeps its previous
order (duplicate and non-contiguous orders included) — and returns True;
get_gallery_images afterwards returns exactly the gallery's images sorted
by their order value. -/
theorem reorder_images_frame_and_sort (db : List GalleryImage) (gid : Nat)
    (m : List (Nat × Nat))
    (hids : (db.map (fun i => i.image_id)).Nodup)
    (hkeys : (m.map Prod.fst).Nodup) :
    (reorder_images db gid m).1 = true ∧
    (reorder_images db gid m).2 = db.map (fun i =>
      match List.lookup i.image_id m with
      | some o => if i.gallery_id == gid then { i with image_order := o } else i
      | none => i) ∧
    List.Pairwise (fun a b : GalleryImage => a.image_order ≤ b.image_order)
      (get_gallery_images (reorder_images db gid m).2 gid) ∧
    (get_gallery_images (reorder_images db gid m).2 gid).Perm
      ((reorder_images db gid m).2.filter (fun i => i.gallery_id == gid)) := by
  refine ⟨rfl, reorder_foldl_eq gid m db hids hkeys, ?_, ?_⟩
  · simp only [get_gallery_images]
    exact List.sorted_insertionSort imgLe _
  · simp only [get_gallery_images]
    exact List.perm_insertionSort imgLe _

/-- C8 (witness): the specification scenario — three images of gallery 3
with orders 1, 2, 3; reorder with the map sending image 2 to order 10; the
image formerly at order 1 comes first, then the one at order 3, then the
reordered image at order 10. -/
theorem reorder_images_frame_and_sort_witness :
    ((exImages.map (fun i => i.image_id)).Nodup) ∧
    ((([(2, 10)] : List (Nat × Nat)).map Prod.fst).Nodup) ∧
    ((get_gallery_images (reorder_images exImages 3 [(2, 10)]).2 3).Perm
      ((reorder_images exImages 3 [(2, 10)]).2.filter
        (fun i => i.gallery_id == 3))) ∧
    ((get_gallery_images (reorder_images exImages 3 [(2, 10)]).2 3).map
      (fun i => (i.image_id, i.image_order)) = [(1, 1), (3, 3), (2, 10)]) := by
  refine ⟨by decide, by decide, ?_, by decide⟩
  exact (reorder_images_frame_and_sort exImages 3 [(2, 10)] (by decide)
    (by decide)).2.2.2

end Osam
